import Mathlib

/-!
Verification development for the Fast-image-processing repository.

The TypeScript sources under src/src/canvas (filters.ts, history.ts,
useCanvas.ts) and the advanced-filter module are shallowly embedded here.
JavaScript numbers are modelled by exact rationals; every store into a
Uint8ClampedArray is modelled by clamping to the interval from 0 to 255
followed by rounding (JavaScript rounds fractional stored values half to
even, and Math.round rounds half up, so the two roundings are modelled
separately).  The transcendental function Math.exp used by the Gaussian
blur is kept abstract as an explicit function parameter, since the claims
settled here never depend on its values.  Division by zero in the rational
model yields 0 where a JavaScript computation would yield NaN; theorems
about histogram equalization therefore carry hypotheses that keep the
relevant denominators nonzero, matching the region on which the model is
faithful to the source.
-/

set_option maxRecDepth 8000

namespace Fip

attribute [local semireducible] Rat.mul Rat.add Rat.sub Rat.inv

/-- Clamp a rational to the closed interval from lo to hi, mirroring
Math.max(lo, Math.min(hi, x)). -/
def clampQ (lo hi q : ℚ) : ℚ := max lo (min hi q)

/-- JavaScript Math.round: round half toward positive infinity.  Mathlib's
round on the rationals is exactly the floor of x + 1/2, which agrees. -/
def jsRound (q : ℚ) : ℤ := round q

/-- Round half to even, the rounding applied when a fractional value is
stored into a Uint8ClampedArray. -/
def roundHalfEven (q : ℚ) : ℤ :=
  let f := ⌊q⌋
  let frac := q - (f : ℚ)
  if frac < 1/2 then f
  else if 1/2 < frac then f + 1
  else if 2 ∣ f then f else f + 1

/-- Store an integer value into a Uint8ClampedArray cell: clamp to the
byte range.  Used at sites where the stored value is a whole number. -/
def storeZ (z : ℤ) : ℕ := (max 0 (min 255 z)).toNat

/-- Store an arbitrary (possibly fractional) numeric value into a
Uint8ClampedArray cell: clamp to the byte range, then round half to even. -/
def storeQ (q : ℚ) : ℕ := (roundHalfEven (clampQ 0 255 q)).toNat

/-- One RGBA sample of a pixel buffer; each channel is a byte. -/
structure Pixel where
  r : ℕ
  g : ℕ
  b : ℕ
  a : ℕ
deriving DecidableEq

/-- The zero pixel, the content of a freshly allocated Uint8ClampedArray. -/
def Pixel.zero : Pixel := ⟨0, 0, 0, 0⟩

instance : Inhabited Pixel := ⟨Pixel.zero⟩

/-- ImageData: width, height and the row-major RGBA samples.  The flat
byte array of the source is modelled as a list of pixels, one per group
of four consecutive bytes. -/
structure ImageData where
  width : ℕ
  height : ℕ
  data : List Pixel
deriving DecidableEq

instance : Inhabited ImageData := ⟨⟨0, 0, []⟩⟩

/-- Well-formedness of an ImageData: the buffer has exactly width times
height pixels and every channel is a byte. -/
def ImageData.wf (img : ImageData) : Prop :=
  img.data.length = img.width * img.height ∧
  ∀ p ∈ img.data, p.r ≤ 255 ∧ p.g ≤ 255 ∧ p.b ≤ 255 ∧ p.a ≤ 255

instance (img : ImageData) : Decidable img.wf := by
  unfold ImageData.wf; infer_instance

/-- Read the pixel at column x, row y (row-major index y*width + x). -/
def getPixel (img : ImageData) (x y : ℕ) : Pixel :=
  img.data.getD (y * img.width + x) Pixel.zero

/-- Build a row-major pixel list of the given dimensions from a function
of the column and row, mirroring the nested for-loops of the source. -/
def mkGrid (w h : ℕ) (f : ℕ → ℕ → Pixel) : List Pixel :=
  (List.range h).flatMap fun y => (List.range w).map fun x => f x y

/-- cloneImageData from useCanvas.ts and history.ts: allocate a fresh
copy of the backing array.  In the pure model the copy is equal to the
source image. -/
def cloneImageData (img : ImageData) : ImageData :=
  ⟨img.width, img.height, img.data⟩

/-- The luma expression 0.299*R + 0.587*G + 0.114*B used throughout the
source, as an exact rational. -/
def lumaQ (p : Pixel) : ℚ := (299 * p.r + 587 * p.g + 114 * p.b) / 1000

/-- Math.round of the luma, the gray value computed by grayscale and by
histogram equalization. -/
def grayOf (p : Pixel) : ℕ := (jsRound (lumaQ p)).toNat

/-- grayscale from filters.ts: replace R, G, B with the rounded luma. -/
def grayscale (img : ImageData) : ImageData :=
  ⟨img.width, img.height, img.data.map fun p =>
    let gray : ℤ := jsRound (lumaQ p)
    ⟨storeZ gray, storeZ gray, storeZ gray, p.a⟩⟩

/-- invert from filters.ts: each RGB channel becomes 255 minus itself. -/
def invert (img : ImageData) : ImageData :=
  ⟨img.width, img.height, img.data.map fun p =>
    ⟨storeZ (255 - (p.r : ℤ)), storeZ (255 - (p.g : ℤ)), storeZ (255 - (p.b : ℤ)), p.a⟩⟩

/-- brightness from filters.ts: add value/100 * 255 to each RGB channel,
clamped. -/
def brightness (img : ImageData) (value : ℚ) : ImageData :=
  let factor := value / 100
  ⟨img.width, img.height, img.data.map fun p =>
    ⟨storeQ (clampQ 0 255 ((p.r : ℚ) + factor * 255)),
     storeQ (clampQ 0 255 ((p.g : ℚ) + factor * 255)),
     storeQ (clampQ 0 255 ((p.b : ℚ) + factor * 255)), p.a⟩⟩

/-- contrast from filters.ts: scale the distance from 128 by
(value+100)/100, clamped. -/
def contrast (img : ImageData) (value : ℚ) : ImageData :=
  let factor := (value + 100) / 100
  ⟨img.width, img.height, img.data.map fun p =>
    ⟨storeQ (clampQ 0 255 (((p.r : ℚ) - 128) * factor + 128)),
     storeQ (clampQ 0 255 (((p.g : ℚ) - 128) * factor + 128)),
     storeQ (clampQ 0 255 (((p.b : ℚ) - 128) * factor + 128)), p.a⟩⟩

/-- saturation from filters.ts: blend each channel away from the luma by
(value+100)/100, clamped. -/
def saturation (img : ImageData) (value : ℚ) : ImageData :=
  let factor := (value + 100) / 100
  ⟨img.width, img.height, img.data.map fun p =>
    let gray := lumaQ p
    ⟨storeQ (clampQ 0 255 (gray + ((p.r : ℚ) - gray) * factor)),
     storeQ (clampQ 0 255 (gray + ((p.g : ℚ) - gray) * factor)),
     storeQ (clampQ 0 255 (gray + ((p.b : ℚ) - gray) * factor)), p.a⟩⟩

/-- adjustRGB from filters.ts: an independent additive offset of
channel/100 * 255 per RGB channel, clamped. -/
def adjustRGB (img : ImageData) (rv gv bv : ℚ) : ImageData :=
  let rFactor := rv / 100
  let gFactor := gv / 100
  let bFactor := bv / 100
  ⟨img.width, img.height, img.data.map fun p =>
    ⟨storeQ (clampQ 0 255 ((p.r : ℚ) + rFactor * 255)),
     storeQ (clampQ 0 255 ((p.g : ℚ) + gFactor * 255)),
     storeQ (clampQ 0 255 ((p.b : ℚ) + bFactor * 255)), p.a⟩⟩

/-- blur from filters.ts: box blur with an odd kernel of size
max(1, floor(radius*2)+1); window coordinates are clamped to the image
edges, so border pixels reuse edge values. -/
def blur (img : ImageData) (radius : ℚ) : ImageData :=
  let w := img.width
  let h := img.height
  let kernelSize : ℤ := max 1 (⌊radius * 2⌋ + 1)
  let halfKernel : ℕ := (kernelSize / 2).toNat
  let offs : List ℤ := (List.range (2 * halfKernel + 1)).map fun (k : ℕ) =>
    ((k : ℤ)) - ((halfKernel : ℤ))
  ⟨w, h, mkGrid w h fun x y =>
    let window := offs.flatMap fun ky => offs.map fun kx =>
      let px := (max 0 (min ((w : ℤ) - 1) ((x : ℤ) + kx))).toNat
      let py := (max 0 (min ((h : ℤ) - 1) ((y : ℤ) + ky))).toNat
      img.data.getD (py * w + px) Pixel.zero
    let count : ℚ := window.length
    ⟨storeZ (jsRound ((window.map fun p => (p.r : ℚ)).sum / count)),
     storeZ (jsRound ((window.map fun p => (p.g : ℚ)).sum / count)),
     storeZ (jsRound ((window.map fun p => (p.b : ℚ)).sum / count)),
     storeZ (jsRound ((window.map fun p => (p.a : ℚ)).sum / count))⟩⟩

/-- The 3 by 3 kernel of the parametric sharpen: center 1 + 4*alpha, the
four edge neighbours -alpha, corners 0. -/
def sharpenKernelW (alpha : ℚ) (ky kx : ℤ) : ℚ :=
  if ky = 0 ∧ kx = 0 then 1 + 4 * alpha
  else if ky = 0 ∨ kx = 0 then -1 * alpha
  else 0

/-- sharpen from filters.ts: convolve interior pixels with the parametric
3 by 3 kernel; the one-pixel border keeps the original values (the result
array starts as a copy of the input). -/
def sharpen (img : ImageData) (strength : ℚ) : ImageData :=
  let w := img.width
  let h := img.height
  let alpha := strength / 100
  ⟨w, h, mkGrid w h fun x y =>
    if 1 ≤ x ∧ x + 1 < w ∧ 1 ≤ y ∧ y + 1 < h then
      let conv := fun (chan : Pixel → ℕ) =>
        ((List.range 3).flatMap fun kyi => (List.range 3).map fun kxi =>
          (chan (img.data.getD ((y - 1 + kyi) * w + (x - 1 + kxi)) Pixel.zero) : ℚ) *
            sharpenKernelW alpha ((kyi : ℤ) - 1) ((kxi : ℤ) - 1)).sum
      ⟨storeQ (clampQ 0 255 (conv Pixel.r)), storeQ (clampQ 0 255 (conv Pixel.g)),
       storeQ (clampQ 0 255 (conv Pixel.b)), (img.data.getD (y * w + x) Pixel.zero).a⟩
    else img.data.getD (y * w + x) Pixel.zero⟩

/-- The cumulative distribution function of a value list: the number of
entries at most i.  Equals the source's running sum cdf[i] = cdf[i-1] +
histogram[i]. -/
def cdfOf (vals : List ℕ) (i : ℕ) : ℕ :=
  ((List.range (i + 1)).map fun v => vals.count v).sum

/-- The first nonzero cdf value, found by scanning i = 0 .. 255 as the
source does (0 when the list is empty). -/
def cdfMinOf (vals : List ℕ) : ℕ :=
  match (List.range 256).find? (fun i => decide (0 < cdfOf vals i)) with
  | some i => cdfOf vals i
  | none => 0

/-- The normalized cdf of the source: 0 where cdf is 0, otherwise
round((cdf[v] - cdfMin) / (totalPixels - cdfMin) * 255).  When
totalPixels = cdfMin the source divides 0 by 0 giving NaN; the rational
model yields 0 there, so theorems exclude that case by hypothesis. -/
def normalizedCdf (vals : List ℕ) (totalPixels : ℕ) (v : ℕ) : ℤ :=
  if cdfOf vals v = 0 then 0
  else jsRound (((cdfOf vals v : ℚ) - (cdfMinOf vals : ℚ)) /
    ((totalPixels : ℚ) - (cdfMinOf vals : ℚ)) * 255)

/-- Luminance-mode histogram equalization from filters.ts: equalize the
rounded luma, blend by alpha = strength/100, then rescale the channels by
newGray/originalGray, with the originalGray = 0 case setting all three
channels to newGray. -/
def histogramEqualizationLum (img : ImageData) (strength : ℚ) : ImageData :=
  let totalPixels := img.width * img.height
  let alpha := strength / 100
  let grayValues := img.data.map grayOf
  ⟨img.width, img.height, img.data.map fun p =>
    let originalGray := grayOf p
    let equalizedGray := normalizedCdf grayValues totalPixels originalGray
    let newGray : ℤ := jsRound ((originalGray : ℚ) * (1 - alpha) + (equalizedGray : ℚ) * alpha)
    if originalGray = 0 then ⟨storeZ newGray, storeZ newGray, storeZ newGray, p.a⟩
    else
      let rq : ℚ := (newGray : ℚ) / (originalGray : ℚ)
      ⟨storeZ (min 255 (max 0 (jsRound ((p.r : ℚ) * rq)))),
       storeZ (min 255 (max 0 (jsRound ((p.g : ℚ) * rq)))),
       storeZ (min 255 (max 0 (jsRound ((p.b : ℚ) * rq)))), p.a⟩⟩

/-- Replace the red channel of a pixel. -/
def setR (p : Pixel) (v : ℕ) : Pixel := ⟨v, p.g, p.b, p.a⟩

/-- Replace the green channel of a pixel. -/
def setG (p : Pixel) (v : ℕ) : Pixel := ⟨p.r, v, p.b, p.a⟩

/-- Replace the blue channel of a pixel. -/
def setB (p : Pixel) (v : ℕ) : Pixel := ⟨p.r, p.g, v, p.a⟩

/-- One channel pass of RGB-mode histogram equalization: build the
channel's cdf from the current data, then blend each sample with its
equalized value by alpha.  The source runs the three passes sequentially
over the same array; the passes touch disjoint channels. -/
def eqPass (get : Pixel → ℕ) (set : Pixel → ℕ → Pixel) (totalPixels : ℕ) (alpha : ℚ)
    (data : List Pixel) : List Pixel :=
  let vals := data.map get
  data.map fun p =>
    let original := get p
    let equalized := normalizedCdf vals totalPixels original
    set p (storeZ (jsRound ((original : ℚ) * (1 - alpha) + (equalized : ℚ) * alpha)))

/-- RGB-mode histogram equalization from filters.ts: equalize the R, G
and B channels independently. -/
def histogramEqualizationRGB (img : ImageData) (strength : ℚ) : ImageData :=
  let totalPixels := img.width * img.height
  let alpha := strength / 100
  ⟨img.width, img.height,
    eqPass Pixel.b setB totalPixels alpha
      (eqPass Pixel.g setG totalPixels alpha
        (eqPass Pixel.r setR totalPixels alpha img.data))⟩

/-- The two histogram-equalization modes of the source. -/
inductive EqMode where
  | luminance : EqMode
  | rgb : EqMode
deriving DecidableEq

/-- histogramEqualization from filters.ts: dispatch on the mode. -/
def histogramEqualization (img : ImageData) (strength : ℚ) (mode : EqMode) : ImageData :=
  if mode = EqMode.rgb then histogramEqualizationRGB img strength
  else histogramEqualizationLum img strength

/-- The crop rectangle of the source; the UI supplies whole-number
coordinates, modelled as integers. -/
structure CropRect where
  x : ℤ
  y : ℤ
  width : ℤ
  height : ℤ
deriving DecidableEq

/-- crop from filters.ts: clamp the rectangle into the image and force
width and height to at least 1, then copy the window. -/
def crop (img : ImageData) (rect : CropRect) : ImageData :=
  let ow : ℤ := img.width
  let oh : ℤ := img.height
  let cropX := max 0 (min rect.x ow)
  let cropY := max 0 (min rect.y oh)
  let cropW := (max 1 (min rect.width (ow - cropX))).toNat
  let cropH := (max 1 (min rect.height (oh - cropY))).toNat
  ⟨cropW, cropH, mkGrid cropW cropH fun px py =>
    img.data.getD ((cropY.toNat + py) * img.width + (cropX.toNat + px)) Pixel.zero⟩

/-- rotateImage from filters.ts: rotate by 90, 180 or 270 degrees (90 and
270 swap the dimensions); the source writes each source pixel to its
destination, which is the inverse index mapping used here. -/
def rotateImage (img : ImageData) (angle : ℤ) : ImageData :=
  let w := img.width
  let h := img.height
  let newW := if angle = 90 ∨ angle = 270 then h else w
  let newH := if angle = 90 ∨ angle = 270 then w else h
  ⟨newW, newH, mkGrid newW newH fun dx dy =>
    if angle = 90 then getPixel img dy (h - 1 - dx)
    else if angle = 180 then getPixel img (w - 1 - dx) (h - 1 - dy)
    else if angle = 270 then getPixel img (w - 1 - dy) dx
    else getPixel img dx dy⟩

/-- flipImage from filters.ts: mirror horizontally or vertically. -/
def flipImage (img : ImageData) (horizontal : Bool) : ImageData :=
  let w := img.width
  let h := img.height
  ⟨w, h, mkGrid w h fun dx dy =>
    if horizontal then getPixel img (w - 1 - dx) dy
    else getPixel img dx (h - 1 - dy)⟩

/-- medianFilter from the advanced-filter module: each channel of an
interior pixel takes the middle element of its sorted window; the border
band of width radius keeps the original values. -/
def medianFilter (img : ImageData) (radius : ℕ) : ImageData :=
  let w := img.width
  let h := img.height
  ⟨w, h, mkGrid w h fun x y =>
    if radius ≤ x ∧ x + radius < w ∧ radius ≤ y ∧ y + radius < h then
      let window := (List.range (2 * radius + 1)).flatMap fun kyi =>
        (List.range (2 * radius + 1)).map fun kxi =>
          img.data.getD ((y - radius + kyi) * w + (x - radius + kxi)) Pixel.zero
      let mid := window.length / 2
      ⟨storeZ ((List.insertionSort (· ≤ ·) (window.map Pixel.r)).getD mid 0),
       storeZ ((List.insertionSort (· ≤ ·) (window.map Pixel.g)).getD mid 0),
       storeZ ((List.insertionSort (· ≤ ·) (window.map Pixel.b)).getD mid 0),
       (img.data.getD (y * w + x) Pixel.zero).a⟩
    else img.data.getD (y * w + x) Pixel.zero⟩

/-- gaussianBlur from the advanced-filter module.  The kernel weight is
exp(-(kx*kx + ky*ky) / (2*sigma*sigma)), normalized to sum 1; Math.exp is
transcendental, so it is modelled by the abstract parameter jsExp.  The
border band of width radius keeps the original values. -/
def gaussianBlur (jsExp : ℚ → ℚ) (img : ImageData) (sigma : ℚ) : ImageData :=
  let w := img.width
  let h := img.height
  let radius : ℕ := (⌈sigma * 3⌉).toNat
  let ks := 2 * radius + 1
  let rawKernel : List (List ℚ) := (List.range ks).map fun (kyi : ℕ) =>
    (List.range ks).map fun (kxi : ℕ) =>
      let ky : ℚ := (kyi : ℚ) - (radius : ℚ)
      let kx : ℚ := (kxi : ℚ) - (radius : ℚ)
      jsExp (-(kx * kx + ky * ky) / (2 * sigma * sigma))
  let s := (rawKernel.map List.sum).sum
  let kernel := rawKernel.map fun row => row.map (· / s)
  ⟨w, h, mkGrid w h fun x y =>
    if radius ≤ x ∧ x + radius < w ∧ radius ≤ y ∧ y + radius < h then
      let conv := fun (chan : Pixel → ℕ) =>
        ((List.range ks).flatMap fun kyi => (List.range ks).map fun kxi =>
          (chan (img.data.getD ((y - radius + kyi) * w + (x - radius + kxi)) Pixel.zero) : ℚ) *
            ((kernel.getD kyi []).getD kxi 0)).sum
      ⟨storeZ (jsRound (conv Pixel.r)), storeZ (jsRound (conv Pixel.g)),
       storeZ (jsRound (conv Pixel.b)), (img.data.getD (y * w + x) Pixel.zero).a⟩
    else img.data.getD (y * w + x) Pixel.zero⟩

/-- The fixed Laplacian kernel of laplacianSharpen: center 4, edges -1,
corners 0. -/
def laplacianKernelW (ky kx : ℤ) : ℤ :=
  if ky = 0 ∧ kx = 0 then 4
  else if ky = 0 ∨ kx = 0 then -1
  else 0

/-- laplacianSharpen from the advanced-filter module: add the Laplacian
response to the original pixel and clamp; the one-pixel border keeps the
original values. -/
def laplacianSharpen (img : ImageData) : ImageData :=
  let w := img.width
  let h := img.height
  ⟨w, h, mkGrid w h fun x y =>
    if 1 ≤ x ∧ x + 1 < w ∧ 1 ≤ y ∧ y + 1 < h then
      let conv := fun (chan : Pixel → ℕ) =>
        ((List.range 3).flatMap fun kyi => (List.range 3).map fun kxi =>
          (chan (img.data.getD ((y - 1 + kyi) * w + (x - 1 + kxi)) Pixel.zero) : ℤ) *
            laplacianKernelW ((kyi : ℤ) - 1) ((kxi : ℤ) - 1)).sum
      let p := img.data.getD (y * w + x) Pixel.zero
      ⟨storeZ ((p.r : ℤ) + conv Pixel.r), storeZ ((p.g : ℤ) + conv Pixel.g),
       storeZ ((p.b : ℤ) + conv Pixel.b), p.a⟩
    else img.data.getD (y * w + x) Pixel.zero⟩

/-- The byte stored for an edge magnitude: the Uint8ClampedArray store of
Math.min(255, Math.sqrt(s)), that is the round-half-to-even of the real
square root of s, capped at 255.  The rounding is computed exactly by
comparing s with the square of the candidate midpoint. -/
def sqrtByte (s : ℚ) : ℕ :=
  if 255 * 255 ≤ s then 255
  else
    let n := Nat.sqrt s.floor.toNat
    if s < ((n : ℚ) + 1/2) ^ 2 then n
    else if ((n : ℚ) + 1/2) ^ 2 < s then n + 1
    else if 2 ∣ n then n else n + 1

/-- The gradient magnitude byte computed by sobelEdgeDetection at an
interior pixel: the luma of the 3 by 3 neighbourhood convolved with the
two Sobel kernels, then min(255, sqrt(gx*gx + gy*gy)) as stored. -/
def sobelMag (img : ImageData) (x y : ℕ) : ℕ :=
  let w := img.width
  let sx : List (List ℚ) := [[-1, 0, 1], [-2, 0, 2], [-1, 0, 1]]
  let sy : List (List ℚ) := [[-1, -2, -1], [0, 0, 0], [1, 2, 1]]
  let grayAt := fun (kyi kxi : ℕ) =>
    lumaQ (img.data.getD ((y - 1 + kyi) * w + (x - 1 + kxi)) Pixel.zero)
  let gx := ((List.range 3).flatMap fun kyi => (List.range 3).map fun kxi =>
    grayAt kyi kxi * ((sx.getD kyi []).getD kxi 0)).sum
  let gy := ((List.range 3).flatMap fun kyi => (List.range 3).map fun kxi =>
    grayAt kyi kxi * ((sy.getD kyi []).getD kxi 0)).sum
  sqrtByte (gx ^ 2 + gy ^ 2)

/-- sobelEdgeDetection from the advanced-filter module: gradient
magnitude of the luma by the two Sobel kernels, written to R, G and B
with alpha forced to 255.  The result array is freshly allocated and the
one-pixel border is never written, so it stays all zero. -/
def sobelEdgeDetection (img : ImageData) : ImageData :=
  let w := img.width
  let h := img.height
  ⟨w, h, mkGrid w h fun x y =>
    if 1 ≤ x ∧ x + 1 < w ∧ 1 ≤ y ∧ y + 1 < h then
      let v := sobelMag img x y
      ⟨v, v, v, 255⟩
    else Pixel.zero⟩

/-- The gradient magnitude byte computed by prewittEdgeDetection at an
interior pixel; like sobelMag with the Prewitt kernels. -/
def prewittMag (img : ImageData) (x y : ℕ) : ℕ :=
  let w := img.width
  let px : List (List ℚ) := [[-1, 0, 1], [-1, 0, 1], [-1, 0, 1]]
  let py : List (List ℚ) := [[-1, -1, -1], [0, 0, 0], [1, 1, 1]]
  let grayAt := fun (kyi kxi : ℕ) =>
    lumaQ (img.data.getD ((y - 1 + kyi) * w + (x - 1 + kxi)) Pixel.zero)
  let gx := ((List.range 3).flatMap fun kyi => (List.range 3).map fun kxi =>
    grayAt kyi kxi * ((px.getD kyi []).getD kxi 0)).sum
  let gy := ((List.range 3).flatMap fun kyi => (List.range 3).map fun kxi =>
    grayAt kyi kxi * ((py.getD kyi []).getD kxi 0)).sum
  sqrtByte (gx ^ 2 + gy ^ 2)

/-- prewittEdgeDetection from the advanced-filter module; like Sobel with
the Prewitt kernels. -/
def prewittEdgeDetection (img : ImageData) : ImageData :=
  let w := img.width
  let h := img.height
  ⟨w, h, mkGrid w h fun x y =>
    if 1 ≤ x ∧ x + 1 < w ∧ 1 ≤ y ∧ y + 1 < h then
      let v := prewittMag img x y
      ⟨v, v, v, 255⟩
    else Pixel.zero⟩

/-- The gradient magnitude byte computed by robertsEdgeDetection from its
2 by 2 neighbourhood. -/
def robertsMag (img : ImageData) (x y : ℕ) : ℕ :=
  let w := img.width
  let g1 := lumaQ (img.data.getD (y * w + x) Pixel.zero)
  let g2 := lumaQ (img.data.getD (y * w + (x + 1)) Pixel.zero)
  let g3 := lumaQ (img.data.getD ((y + 1) * w + x) Pixel.zero)
  let g4 := lumaQ (img.data.getD ((y + 1) * w + (x + 1)) Pixel.zero)
  let gx := g1 - g4
  let gy := g2 - g3
  sqrtByte (gx ^ 2 + gy ^ 2)

/-- robertsEdgeDetection from the advanced-filter module: the 2 by 2
Roberts cross.  Pixels with x < width-1 and y < height-1 are processed
(the top and left edges included); the bottom row and right column of the
freshly allocated result stay all zero. -/
def robertsEdgeDetection (img : ImageData) : ImageData :=
  let w := img.width
  let h := img.height
  ⟨w, h, mkGrid w h fun x y =>
    if x + 1 < w ∧ y + 1 < h then
      let v := robertsMag img x y
      ⟨v, v, v, 255⟩
    else Pixel.zero⟩

/-- FilterParams from filters.ts: a string type tag plus optional
parameters; absent fields take the defaults of the destructuring at the
top of applyFilter. -/
structure FilterParams where
  type : String
  value : Option ℚ
  radius : Option ℚ
  cropRect : Option CropRect
  r : Option ℚ
  g : Option ℚ
  b : Option ℚ
  strength : Option ℚ
  mode : Option EqMode
  sigma : Option ℚ
deriving DecidableEq

/-- A FilterParams with only the type tag set, every optional field
absent. -/
def mkParams (type : String) : FilterParams :=
  ⟨type, none, none, none, none, none, none, none, none, none⟩

/-- applyFilter from filters.ts: dispatch on the string type tag.  The
destructuring defaults are value = 0, radius = 1, r = g = b = 0,
strength = 100, mode = luminance, sigma = 1.  Note two facts visible in
the source: the sharpen case calls sharpen(imageData) without any
strength argument, so the function's default strength 100 always applies;
and an unknown tag, or a crop without a rectangle, returns the input
unchanged.  The median-filter radius reaches the source as a JS number
used directly as a loop bound; the embedding truncates it to a natural
number, which coincides with the source on the whole-number radii the
callers supply. -/
def applyFilter (jsExp : ℚ → ℚ) (img : ImageData) (params : FilterParams) : ImageData :=
  let value := params.value.getD 0
  let radius := params.radius.getD 1
  let rv := params.r.getD 0
  let gv := params.g.getD 0
  let bv := params.b.getD 0
  let strength := params.strength.getD 100
  let mode := params.mode.getD EqMode.luminance
  let sigma := params.sigma.getD 1
  match params.type with
  | "grayscale" => grayscale img
  | "invert" => invert img
  | "brightness" => brightness img value
  | "contrast" => contrast img value
  | "saturation" => saturation img value
  | "adjustRGB" => adjustRGB img rv gv bv
  | "blur" => blur img radius
  | "sharpen" => sharpen img 100
  | "histogramEqualization" => histogramEqualization img strength mode
  | "medianFilter" => medianFilter img (⌊radius⌋).toNat
  | "gaussianBlur" => gaussianBlur jsExp img sigma
  | "laplacianSharpen" => laplacianSharpen img
  | "sobelEdge" => sobelEdgeDetection img
  | "prewittEdge" => prewittEdgeDetection img
  | "robertsEdge" => robertsEdgeDetection img
  | "crop" =>
    match params.cropRect with
    | some rect => crop img rect
    | none => img
  | _ => img

/-- currentAdjustments from useCanvas.ts: one field per continuously
adjustable operator. -/
structure Adjustments where
  brightness : ℚ
  contrast : ℚ
  saturation : ℚ
  blur : ℚ
  rgbR : ℚ
  rgbG : ℚ
  rgbB : ℚ
  histogramEqualizationStrength : ℚ
  histogramEqualizationMode : EqMode
  medianFilterRadius : ℚ
  gaussianBlurSigma : ℚ
  sharpenStrength : ℚ
  laplacianSharpen : Bool
  grayscale : Bool
  invert : Bool
deriving DecidableEq

/-- The all-neutral defaults of currentAdjustments. -/
def defaultAdjustments : Adjustments :=
  ⟨0, 0, 0, 0, 0, 0, 0, 0, EqMode.luminance, 0, 0, 0, false, false, false⟩

/-- updateAdjustments from useCanvas.ts.  The destructuring defaults here
are value = 0, radius = 1, r = g = b = 0, strength = 0, mode = luminance,
sigma = 0.  Note that the medianFilter case stores the value field, and
that laplacianSharpen, grayscale and invert toggle their booleans. -/
def updateAdjustments (params : FilterParams) (adj : Adjustments) : Adjustments :=
  let value := params.value.getD 0
  let radius := params.radius.getD 1
  let rv := params.r.getD 0
  let gv := params.g.getD 0
  let bv := params.b.getD 0
  let strength := params.strength.getD 0
  let mode := params.mode.getD EqMode.luminance
  let sigma := params.sigma.getD 0
  match params.type with
  | "brightness" => { adj with brightness := value }
  | "contrast" => { adj with contrast := value }
  | "saturation" => { adj with saturation := value }
  | "blur" => { adj with blur := radius }
  | "adjustRGB" => { adj with rgbR := rv, rgbG := gv, rgbB := bv }
  | "histogramEqualization" =>
    { adj with histogramEqualizationStrength := strength, histogramEqualizationMode := mode }
  | "medianFilter" => { adj with medianFilterRadius := value }
  | "gaussianBlur" => { adj with gaussianBlurSigma := sigma }
  | "sharpen" => { adj with sharpenStrength := value }
  | "laplacianSharpen" => { adj with laplacianSharpen := !adj.laplacianSharpen }
  | "grayscale" => { adj with grayscale := !adj.grayscale }
  | "invert" => { adj with invert := !adj.invert }
  | _ => adj

/-- applyAllAdjustments from useCanvas.ts: start from a fresh copy of the
original and apply the operators in the source's fixed order, each behind
its guard exactly as written there (strict inequality with 0 for blur,
sharpen, histogram equalization, median filter and Gaussian blur). -/
def applyAllAdjustments (jsExp : ℚ → ℚ) (original : ImageData) (adj : Adjustments) : ImageData :=
  let r0 := cloneImageData original
  let r1 := if adj.brightness ≠ 0 then
    applyFilter jsExp r0 { mkParams "brightness" with value := some adj.brightness } else r0
  let r2 := if adj.contrast ≠ 0 then
    applyFilter jsExp r1 { mkParams "contrast" with value := some adj.contrast } else r1
  let r3 := if adj.saturation ≠ 0 then
    applyFilter jsExp r2 { mkParams "saturation" with value := some adj.saturation } else r2
  let r4 := if adj.rgbR ≠ 0 ∨ adj.rgbG ≠ 0 ∨ adj.rgbB ≠ 0 then
    applyFilter jsExp r3 { mkParams "adjustRGB" with
      r := some adj.rgbR, g := some adj.rgbG, b := some adj.rgbB } else r3
  let r5 := if adj.grayscale then applyFilter jsExp r4 (mkParams "grayscale") else r4
  let r6 := if adj.invert then applyFilter jsExp r5 (mkParams "invert") else r5
  let r7 := if 0 < adj.blur then
    applyFilter jsExp r6 { mkParams "blur" with radius := some adj.blur } else r6
  let r8 := if 0 < adj.sharpenStrength then
    applyFilter jsExp r7 { mkParams "sharpen" with value := some adj.sharpenStrength } else r7
  let r9 := if 0 < adj.histogramEqualizationStrength then
    applyFilter jsExp r8 { mkParams "histogramEqualization" with
      strength := some adj.histogramEqualizationStrength,
      mode := some adj.histogramEqualizationMode } else r8
  let r10 := if 0 < adj.medianFilterRadius then
    applyFilter jsExp r9 { mkParams "medianFilter" with radius := some adj.medianFilterRadius } else r9
  let r11 := if 0 < adj.gaussianBlurSigma then
    applyFilter jsExp r10 { mkParams "gaussianBlur" with sigma := some adj.gaussianBlurSigma } else r10
  if adj.laplacianSharpen then applyFilter jsExp r11 (mkParams "laplacianSharpen") else r11

/-- Modelled from the spec: the compositor contract of section 4.2 — from
a fresh deep copy of the original, apply the operators in the fixed total
order, each exactly when its stored parameter differs from its neutral
value (0 for every numeric parameter, false for every boolean). -/
def composeSpec (jsExp : ℚ → ℚ) (original : ImageData) (adj : Adjustments) : ImageData :=
  let r0 := cloneImageData original
  let r1 := if adj.brightness ≠ 0 then
    applyFilter jsExp r0 { mkParams "brightness" with value := some adj.brightness } else r0
  let r2 := if adj.contrast ≠ 0 then
    applyFilter jsExp r1 { mkParams "contrast" with value := some adj.contrast } else r1
  let r3 := if adj.saturation ≠ 0 then
    applyFilter jsExp r2 { mkParams "saturation" with value := some adj.saturation } else r2
  let r4 := if adj.rgbR ≠ 0 ∨ adj.rgbG ≠ 0 ∨ adj.rgbB ≠ 0 then
    applyFilter jsExp r3 { mkParams "adjustRGB" with
      r := some adj.rgbR, g := some adj.rgbG, b := some adj.rgbB } else r3
  let r5 := if adj.grayscale then applyFilter jsExp r4 (mkParams "grayscale") else r4
  let r6 := if adj.invert then applyFilter jsExp r5 (mkParams "invert") else r5
  let r7 := if adj.blur ≠ 0 then
    applyFilter jsExp r6 { mkParams "blur" with radius := some adj.blur } else r6
  let r8 := if adj.sharpenStrength ≠ 0 then
    applyFilter jsExp r7 { mkParams "sharpen" with value := some adj.sharpenStrength } else r7
  let r9 := if adj.histogramEqualizationStrength ≠ 0 then
    applyFilter jsExp r8 { mkParams "histogramEqualization" with
      strength := some adj.histogramEqualizationStrength,
      mode := some adj.histogramEqualizationMode } else r8
  let r10 := if adj.medianFilterRadius ≠ 0 then
    applyFilter jsExp r9 { mkParams "medianFilter" with radius := some adj.medianFilterRadius } else r9
  let r11 := if adj.gaussianBlurSigma ≠ 0 then
    applyFilter jsExp r10 { mkParams "gaussianBlur" with sigma := some adj.gaussianBlurSigma } else r10
  if adj.laplacianSharpen then applyFilter jsExp r11 (mkParams "laplacianSharpen") else r11

/-- The documented parameter ranges of the numeric pipeline parameters
that sit behind strict-positivity guards: they are never negative (the UI
sliders enforce 0 as the lower bound for radii, strengths and sigma). -/
def InRange (adj : Adjustments) : Prop :=
  0 ≤ adj.blur ∧ 0 ≤ adj.sharpenStrength ∧ 0 ≤ adj.histogramEqualizationStrength ∧
    0 ≤ adj.medianFilterRadius ∧ 0 ≤ adj.gaussianBlurSigma

instance (adj : Adjustments) : Decidable (InRange adj) := by
  unfold InRange; infer_instance

/-- HistoryState from history.ts: a snapshot plus its timestamp. -/
structure HistoryState where
  imageData : ImageData
  timestamp : ℕ
deriving DecidableEq

instance : Inhabited HistoryState := ⟨⟨default, 0⟩⟩

/-- HistoryManager from history.ts.  The cursor currentIndex starts at -1
and is modelled as an integer. -/
structure HistoryManager where
  history : List HistoryState
  currentIndex : ℤ
  maxHistorySize : ℕ
deriving DecidableEq

/-- A freshly constructed HistoryManager: empty, cursor -1, capacity 50. -/
def HistoryManager.init : HistoryManager := ⟨[], -1, 50⟩

/-- canUndo from history.ts. -/
def HistoryManager.canUndo (m : HistoryManager) : Bool := 0 < m.currentIndex

/-- canRedo from history.ts. -/
def HistoryManager.canRedo (m : HistoryManager) : Bool :=
  m.currentIndex < (m.history.length : ℤ) - 1

/-- addState from history.ts: drop the entries beyond the cursor when it
is not at the tail, append a deep copy of the new state with the given
timestamp (Date.now() in the source), move the cursor to the tail, and
evict the oldest entry on capacity overflow. -/
def HistoryManager.addState (m : HistoryManager) (imageData : ImageData) (ts : ℕ) :
    HistoryManager :=
  let hist1 := if m.currentIndex < (m.history.length : ℤ) - 1 then
    m.history.take (m.currentIndex + 1).toNat else m.history
  let hist2 := hist1 ++ [⟨cloneImageData imageData, ts⟩]
  let idx2 : ℤ := (hist2.length : ℤ) - 1
  if m.maxHistorySize < hist2.length then ⟨hist2.drop 1, idx2 - 1, m.maxHistorySize⟩
  else ⟨hist2, idx2, m.maxHistorySize⟩

/-- undo from history.ts: when the cursor is past 0, step it back and
return a copy of the entry there; otherwise return the null sentinel and
change nothing. -/
def HistoryManager.undo (m : HistoryManager) : Option ImageData × HistoryManager :=
  if m.canUndo then
    (some (cloneImageData ((m.history.getD (m.currentIndex - 1).toNat default).imageData)),
      { m with currentIndex := m.currentIndex - 1 })
  else (none, m)

/-- redo from history.ts: when the cursor is before the tail, step it
forward and return a copy of the entry there; otherwise return the null
sentinel and change nothing. -/
def HistoryManager.redo (m : HistoryManager) : Option ImageData × HistoryManager :=
  if m.canRedo then
    (some (cloneImageData ((m.history.getD (m.currentIndex + 1).toNat default).imageData)),
      { m with currentIndex := m.currentIndex + 1 })
  else (none, m)

/-- clear from history.ts. -/
def HistoryManager.clear (m : HistoryManager) : HistoryManager :=
  ⟨[], -1, m.maxHistorySize⟩

/-- The document-level state of CanvasManager from useCanvas.ts (the
rendering members are outside the model). -/
structure CanvasState where
  original : Option ImageData
  current : Option ImageData
  history : HistoryManager
  adjustments : Adjustments
  cropRect : Option CropRect
  isProcessing : Bool
deriving DecidableEq

/-- A freshly constructed CanvasManager. -/
def CanvasState.init : CanvasState :=
  ⟨none, none, HistoryManager.init, defaultAdjustments, none, false⟩

/-- CanvasManager.applyFilter from useCanvas.ts: bail out when no image
is loaded or a composition is in flight, otherwise store the new
parameter and recompose the current buffer from the untouched original.
The busy flag is set and cleared within the call, so it is unchanged in
the resulting state. -/
def CanvasState.applyFilter (jsExp : ℚ → ℚ) (params : FilterParams) (st : CanvasState) :
    CanvasState :=
  match st.original with
  | none => st
  | some orig =>
    if st.isProcessing then st
    else
      let adj := updateAdjustments params st.adjustments
      { st with adjustments := adj, current := some (applyAllAdjustments jsExp orig adj) }

/-- CanvasManager.loadImage from useCanvas.ts, after the external decode
has produced an ImageData: store it as the original, set the current
buffer to a copy, clear the history and push the copy as the first entry.
The source does not touch currentAdjustments here. -/
def CanvasState.loadImage (decoded : ImageData) (ts : ℕ) (st : CanvasState) : CanvasState :=
  let cur := cloneImageData decoded
  { st with
    original := some decoded,
    current := some cur,
    history := (st.history.clear).addState cur ts }

/-- CanvasManager.bake from useCanvas.ts. -/
def CanvasState.bake (ts : ℕ) (st : CanvasState) : CanvasState :=
  match st.current with
  | none => st
  | some cur => { st with history := st.history.addState cur ts }

/-- CanvasManager.undo from useCanvas.ts: a successful manager undo
replaces the current buffer and yields true; the null sentinel yields
false and changes nothing. -/
def CanvasState.undo (st : CanvasState) : Bool × CanvasState :=
  match st.history.undo with
  | (some img, m) => (true, { st with history := m, current := some img })
  | (none, m) => (false, { st with history := m })

/-- CanvasManager.redo from useCanvas.ts. -/
def CanvasState.redo (st : CanvasState) : Bool × CanvasState :=
  match st.history.redo with
  | (some img, m) => (true, { st with history := m, current := some img })
  | (none, m) => (false, { st with history := m })

/-- CanvasManager.rotate from useCanvas.ts: replace only the current
buffer with the rotated image (the original is not touched). -/
def CanvasState.rotate (angle : ℤ) (st : CanvasState) : CanvasState :=
  match st.current with
  | none => st
  | some img => { st with current := some (rotateImage img angle) }

/-- CanvasManager.flip from useCanvas.ts: replace only the current
buffer with the flipped image. -/
def CanvasState.flip (horizontal : Bool) (st : CanvasState) : CanvasState :=
  match st.current with
  | none => st
  | some img => { st with current := some (flipImage img horizontal) }

/-- CanvasManager.confirmCrop from useCanvas.ts: when a crop rectangle is
set and an image is loaded, replace only the current buffer with the
cropped image and clear the rectangle. -/
def CanvasState.confirmCrop (jsExp : ℚ → ℚ) (st : CanvasState) : CanvasState :=
  match st.cropRect, st.current with
  | some rect, some img =>
    { st with
      current := some (Fip.applyFilter jsExp img { mkParams "crop" with cropRect := some rect }),
      cropRect := none }
  | _, _ => st

/-- A run of CanvasManager.applyFilter calls, oldest first. -/
def runFilters (jsExp : ℚ → ℚ) (ps : List FilterParams) (st : CanvasState) : CanvasState :=
  ps.foldl (fun s p => CanvasState.applyFilter jsExp p s) st

/-! Helper lemmas about stores, grids and well-formed buffers. -/

theorem clampQ_eq_self {q : ℚ} (h0 : 0 ≤ q) (h255 : q ≤ 255) : clampQ 0 255 q = q := by
  unfold clampQ
  rw [min_eq_right h255, max_eq_right h0]

theorem roundHalfEven_intCast (z : ℤ) : roundHalfEven ((z : ℚ)) = z := by
  unfold roundHalfEven
  rw [Int.floor_intCast]
  norm_num

theorem storeQ_natCast {n : ℕ} (h : n ≤ 255) : storeQ ((n : ℚ)) = n := by
  unfold storeQ
  rw [clampQ_eq_self (by positivity) (by exact_mod_cast h)]
  have : ((n : ℚ)) = (((n : ℤ) : ℚ)) := by norm_cast
  rw [this, roundHalfEven_intCast, Int.toNat_natCast]

theorem storeZ_natCast {n : ℕ} (h : n ≤ 255) : storeZ ((n : ℤ)) = n := by
  unfold storeZ
  rw [min_eq_right (by exact_mod_cast h), max_eq_right (by positivity), Int.toNat_natCast]

theorem jsRound_natCast (n : ℕ) : jsRound ((n : ℚ)) = n := by
  unfold jsRound
  exact round_natCast n

theorem mkGrid_length (w h : ℕ) (f : ℕ → ℕ → Pixel) : (mkGrid w h f).length = h * w := by
  unfold mkGrid
  rw [List.length_flatMap]
  induction h with
  | zero => simp
  | succ n ih =>
    rw [List.range_succ]
    simp only [List.map_append, List.sum_append, ih]
    simp [Nat.succ_mul]

theorem mkGrid_succ (w h : ℕ) (f : ℕ → ℕ → Pixel) :
    mkGrid w (h + 1) f = mkGrid w h f ++ (List.range w).map fun x => f x h := by
  unfold mkGrid
  rw [List.range_succ, List.flatMap_append]
  simp [List.flatMap]

theorem mkGrid_getElem? (w h : ℕ) (f : ℕ → ℕ → Pixel) (x y : ℕ) (hx : x < w) (hy : y < h) :
    (mkGrid w h f)[y * w + x]? = some (f x y) := by
  induction h with
  | zero => omega
  | succ n ih =>
    rw [mkGrid_succ, List.getElem?_append]
    by_cases hyn : y < n
    · rw [if_pos (by rw [mkGrid_length]; calc
        y * w + x < y * w + w := by omega
        _ = (y + 1) * w := by ring
        _ ≤ n * w := Nat.mul_le_mul_right w (by omega))]
      exact ih hyn
    · have hyeq : y = n := by omega
      subst hyeq
      rw [if_neg (by rw [mkGrid_length]; omega), mkGrid_length]
      have hidx : y * w + x - y * w = x := by omega
      rw [hidx, List.getElem?_map, List.getElem?_range hx]
      rfl

theorem mkGrid_getPixel (w h : ℕ) (f : ℕ → ℕ → Pixel) (x y : ℕ) (hx : x < w) (hy : y < h) :
    getPixel ⟨w, h, mkGrid w h f⟩ x y = f x y := by
  unfold getPixel
  rw [List.getD_eq_getElem?_getD]
  simp only []
  rw [mkGrid_getElem? w h f x y hx hy]
  rfl

theorem mkGrid_congr (w h : ℕ) (f g : ℕ → ℕ → Pixel)
    (hfg : ∀ x y, x < w → y < h → f x y = g x y) : mkGrid w h f = mkGrid w h g := by
  induction h with
  | zero => rfl
  | succ n ih =>
    rw [mkGrid_succ, mkGrid_succ, ih fun x y hx hy => hfg x y hx (by omega)]
    congr 1
    apply List.map_congr_left
    intro a ha
    exact hfg a n (List.mem_range.mp ha) (by omega)

theorem mkGrid_getD_self (w h : ℕ) (l : List Pixel) (hlen : l.length = w * h) :
    mkGrid w h (fun x y => l.getD (y * w + x) Pixel.zero) = l := by
  rcases Nat.eq_zero_or_pos w with hw | hw
  · subst hw
    have h1 : (mkGrid 0 h fun x y => l.getD (y * 0 + x) Pixel.zero).length = 0 := by
      rw [mkGrid_length]; omega
    have h2 : l.length = 0 := by omega
    rw [List.eq_nil_of_length_eq_zero h1, List.eq_nil_of_length_eq_zero h2]
  · have hmul : h * w = w * h := Nat.mul_comm h w
    apply List.ext_getElem?
    intro i
    by_cases hi : i < w * h
    · have hx : i % w < w := Nat.mod_lt _ hw
      have hy : i / w < h := Nat.div_lt_iff_lt_mul hw |>.mpr (by omega)
      have hrec : i / w * w + i % w = i := by
        rw [Nat.mul_comm]
        exact Nat.div_add_mod i w
      rw [show i = i / w * w + i % w from hrec.symm,
        mkGrid_getElem? w h _ (i % w) (i / w) hx hy, hrec,
        List.getElem?_eq_getElem (by omega), List.getD_eq_getElem l _ (by omega)]
    · rw [List.getElem?_eq_none (by rw [mkGrid_length]; omega),
        List.getElem?_eq_none (by omega)]

theorem getD_wf (img : ImageData) (hwf : img.wf) (i : ℕ) :
    (img.data.getD i Pixel.zero).r ≤ 255 ∧ (img.data.getD i Pixel.zero).g ≤ 255 ∧
    (img.data.getD i Pixel.zero).b ≤ 255 ∧ (img.data.getD i Pixel.zero).a ≤ 255 := by
  by_cases hi : i < img.data.length
  · rw [List.getD_eq_getElem _ _ hi]
    exact hwf.2 _ (List.getElem_mem hi)
  · rw [List.getD_eq_getElem?_getD, List.getElem?_eq_none (by omega)]
    exact ⟨by simp [Pixel.zero], by simp [Pixel.zero], by simp [Pixel.zero], by simp [Pixel.zero]⟩

/-! Concrete fixtures used by counterexamples and witnesses. -/

/-- A 1 by 1 buffer. -/
def bufA : ImageData := ⟨1, 1, [⟨1, 1, 1, 1⟩]⟩

/-- A 1 by 1 buffer distinct from bufA. -/
def bufB : ImageData := ⟨1, 1, [⟨2, 2, 2, 2⟩]⟩

/-- A 1 by 1 buffer distinct from bufA and bufB. -/
def bufC : ImageData := ⟨1, 1, [⟨3, 3, 3, 3⟩]⟩

/-- A 1 by 1 buffer distinct from bufA, bufB and bufC. -/
def bufD : ImageData := ⟨1, 1, [⟨4, 4, 4, 4⟩]⟩

/-- A 1 by 1 buffer distinct from the other fixture buffers. -/
def bufE : ImageData := ⟨1, 1, [⟨5, 5, 5, 5⟩]⟩

/-- A 2 by 2 buffer with pairwise distinct samples, no pixel of rounded
luma 0, and every channel non-uniform. -/
def probeImage : ImageData :=
  ⟨2, 2, [⟨10, 20, 30, 40⟩, ⟨50, 60, 70, 80⟩, ⟨90, 100, 110, 120⟩, ⟨130, 140, 150, 160⟩]⟩

/-- A 3 by 3 buffer whose single interior pixel stands out from its
neighbourhood, so that different sharpen strengths give different
results. -/
def sharpenProbe : ImageData :=
  ⟨3, 3, [⟨90, 90, 90, 255⟩, ⟨90, 90, 90, 255⟩, ⟨90, 90, 90, 255⟩,
          ⟨90, 90, 90, 255⟩, ⟨100, 100, 100, 255⟩, ⟨90, 90, 90, 255⟩,
          ⟨90, 90, 90, 255⟩, ⟨90, 90, 90, 255⟩, ⟨90, 90, 90, 255⟩]⟩

/-- A 3 by 3 all-white opaque buffer. -/
def whiteProbe : ImageData :=
  ⟨3, 3, [⟨255, 255, 255, 255⟩, ⟨255, 255, 255, 255⟩, ⟨255, 255, 255, 255⟩,
          ⟨255, 255, 255, 255⟩, ⟨255, 255, 255, 255⟩, ⟨255, 255, 255, 255⟩,
          ⟨255, 255, 255, 255⟩, ⟨255, 255, 255, 255⟩, ⟨255, 255, 255, 255⟩]⟩

/-- A 2 by 1 buffer (wider than tall), for the geometry counterexample. -/
def wideBuf : ImageData := ⟨2, 1, [⟨1, 2, 3, 4⟩, ⟨5, 6, 7, 8⟩]⟩

/-- A document state with wideBuf loaded. -/
def stGeom : CanvasState :=
  { CanvasState.init with original := some wideBuf, current := some wideBuf }

/-- A document state with bufA loaded and a non-neutral brightness. -/
def stWithBrightness : CanvasState :=
  { CanvasState.init with
    original := some bufA,
    current := some bufA,
    adjustments := { defaultAdjustments with brightness := 50 } }

/-- A document state whose history has a single entry with the cursor on
it: both the undo and the redo boundary at once. -/
def stHist : CanvasState :=
  { CanvasState.init with history := ⟨[⟨bufA, 0⟩], 0, 50⟩, current := some bufA }

/-! Claim theorems. -/

theorem applyFilter_preserves_original (jsExp : ℚ → ℚ) (p : FilterParams) (st : CanvasState) :
    (CanvasState.applyFilter jsExp p st).original = st.original := by
  unfold CanvasState.applyFilter
  split
  · rfl
  · split
    · rfl
    · rfl

/-- C2: after any sequence of CanvasManager.applyFilter calls (each of
which stores the parameter and recomposes from the original), the stored
original buffer is unchanged; every operator returns a fresh buffer and
recomposition starts from a fresh copy, which the pure model reflects by
never touching the original field. -/
theorem claim2_original_unchanged (jsExp : ℚ → ℚ) (ps : List FilterParams) (st : CanvasState) :
    (runFilters jsExp ps st).original = st.original := by
  induction ps generalizing st with
  | nil => rfl
  | cons p ps ih =>
    unfold runFilters at ih ⊢
    rw [List.foldl_cons, ih]
    exact applyFilter_preserves_original jsExp p st

/-- C4: from history [A, B, C, D] with the cursor on C, addState E
discards D and yields [A, B, C, E] with the cursor on E; undo then
returns a copy of C, and redo returns a copy of E again. -/
theorem claim4_history_linearity (A B C D E : ImageData) (ta tb tc td te : ℕ) :
    (HistoryManager.mk [⟨A, ta⟩, ⟨B, tb⟩, ⟨C, tc⟩, ⟨D, td⟩] 2 50).addState E te =
      HistoryManager.mk [⟨A, ta⟩, ⟨B, tb⟩, ⟨C, tc⟩, ⟨E, te⟩] 3 50 ∧
    (HistoryManager.mk [⟨A, ta⟩, ⟨B, tb⟩, ⟨C, tc⟩, ⟨E, te⟩] 3 50).undo =
      (some C, HistoryManager.mk [⟨A, ta⟩, ⟨B, tb⟩, ⟨C, tc⟩, ⟨E, te⟩] 2 50) ∧
    (HistoryManager.mk [⟨A, ta⟩, ⟨B, tb⟩, ⟨C, tc⟩, ⟨E, te⟩] 2 50).redo =
      (some E, HistoryManager.mk [⟨A, ta⟩, ⟨B, tb⟩, ⟨C, tc⟩, ⟨E, te⟩] 3 50) :=
  ⟨rfl, rfl, rfl⟩

/-- C9: undo with the cursor at 0 and redo with the cursor at the tail
return the null sentinel at the HistoryManager level and false at the
CanvasManager level, and leave the entries, the cursor and the current
buffer unchanged. -/
theorem claim9_boundary_noops (m : HistoryManager) (st : CanvasState) :
    (m.currentIndex = 0 → m.undo = (none, m)) ∧
    (m.currentIndex = (m.history.length : ℤ) - 1 → m.redo = (none, m)) ∧
    (st.history.currentIndex = 0 → CanvasState.undo st = (false, st)) ∧
    (st.history.currentIndex = (st.history.history.length : ℤ) - 1 →
      CanvasState.redo st = (false, st)) := by
  have hu : ∀ m' : HistoryManager, m'.currentIndex = 0 → m'.undo = (none, m') := by
    intro m' h
    unfold HistoryManager.undo HistoryManager.canUndo
    rw [h]
    norm_num
  have hr : ∀ m' : HistoryManager,
      m'.currentIndex = (m'.history.length : ℤ) - 1 → m'.redo = (none, m') := by
    intro m' h
    unfold HistoryManager.redo HistoryManager.canRedo
    rw [h]
    norm_num
  refine ⟨hu m, hr m, fun h => ?_, fun h => ?_⟩
  · unfold CanvasState.undo
    rw [hu st.history h]
  · unfold CanvasState.redo
    rw [hr st.history h]

/-- C9 witness: a single-entry history with the cursor on it is both
boundaries at once; undo and redo are no-ops there. -/
theorem claim9_witness :
    stHist.history.undo = (none, stHist.history) ∧
    stHist.history.redo = (none, stHist.history) ∧
    CanvasState.undo stHist = (false, stHist) ∧
    CanvasState.redo stHist = (false, stHist) := by
  obtain ⟨h1, h2, h3, h4⟩ := claim9_boundary_noops stHist.history stHist
  exact ⟨h1 (by decide), h2 (by decide), h3 (by decide), h4 (by decide)⟩

/-- The type tags the applyFilter dispatcher recognizes. -/
def knownTags : List String :=
  ["grayscale", "invert", "brightness", "contrast", "saturation", "adjustRGB", "blur",
   "sharpen", "histogramEqualization", "medianFilter", "gaussianBlur", "laplacianSharpen",
   "sobelEdge", "prewittEdge", "robertsEdge", "crop"]

/-- C10: applyFilter returns its input unchanged when the tag matches no
known operator, and also when the tag is crop but no rectangle is
supplied. -/
theorem claim10_silent_noop (jsExp : ℚ → ℚ) (img : ImageData) (p : FilterParams) :
    (p.type ∉ knownTags → applyFilter jsExp img p = img) ∧
    (p.type = "crop" → p.cropRect = none → applyFilter jsExp img p = img) := by
  constructor
  · intro h
    unfold applyFilter
    split
    all_goals first
      | rfl
      | (rename_i heq; exact absurd (by rw [heq]; decide) h)
  · intro hcrop hnone
    unfold applyFilter
    split
    all_goals first
      | rfl
      | (rw [hnone])
      | (rename_i heq; rw [hcrop] at heq; exact absurd heq (by decide))

/-- C10 witness: an unrecognized tag, and a crop without a rectangle,
leave a concrete buffer untouched. -/
theorem claim10_witness :
    applyFilter (fun _ => 0) probeImage (mkParams "posterize") = probeImage ∧
    applyFilter (fun _ => 0) probeImage (mkParams "crop") = probeImage := by
  refine ⟨(claim10_silent_noop (fun _ => 0) probeImage (mkParams "posterize")).1 (by decide),
    (claim10_silent_noop (fun _ => 0) probeImage (mkParams "crop")).2 rfl rfl⟩

/-- C7: evaluating the dispatcher on a concrete buffer shows that the
sharpen case ignores the supplied strength: applyFilter with strength 50
equals the full-strength sharpen, which differs from the strength-50
sharpen that the claim (and the sharpen function's own contract)
prescribe. -/
theorem claim7_dispatch_drops_strength :
    applyFilter (fun _ => 0) sharpenProbe { mkParams "sharpen" with value := some 50 } =
      sharpen sharpenProbe 100 ∧
    sharpen sharpenProbe 100 ≠ sharpen sharpenProbe 50 := by
  exact ⟨rfl, by decide⟩

/-- C5 counterexample: loading a new image does not reset the adjustment
state; a document with brightness 50 keeps brightness 50 after a load. -/
theorem claim5_counterexample :
    (CanvasState.loadImage bufB 7 stWithBrightness).adjustments ≠ defaultAdjustments := by
  decide

/-- C5 amended: a successful load replaces the original with the decoded
buffer, sets the current buffer to a copy of it, clears the history and
pushes that copy as the single first entry; the adjustment state is left
exactly as it was (not reset to the neutral defaults). -/
theorem claim5_amended (decoded : ImageData) (ts : ℕ) (st : CanvasState)
    (hcap : 1 ≤ st.history.maxHistorySize) :
    (CanvasState.loadImage decoded ts st).original = some decoded ∧
    (CanvasState.loadImage decoded ts st).current = some decoded ∧
    (CanvasState.loadImage decoded ts st).history.history = [⟨decoded, ts⟩] ∧
    (CanvasState.loadImage decoded ts st).history.currentIndex = 0 ∧
    (CanvasState.loadImage decoded ts st).adjustments = st.adjustments := by
  have h0 : ¬ st.history.maxHistorySize = 0 := by omega
  unfold CanvasState.loadImage HistoryManager.addState HistoryManager.clear cloneImageData
  norm_num [h0]

/-- C5 witness: the amended load behaviour at a concrete state. -/
theorem claim5_witness :
    (CanvasState.loadImage bufB 7 stWithBrightness).original = some bufB ∧
    (CanvasState.loadImage bufB 7 stWithBrightness).current = some bufB ∧
    (CanvasState.loadImage bufB 7 stWithBrightness).history.history = [⟨bufB, 7⟩] ∧
    (CanvasState.loadImage bufB 7 stWithBrightness).history.currentIndex = 0 ∧
    (CanvasState.loadImage bufB 7 stWithBrightness).adjustments = stWithBrightness.adjustments :=
  claim5_amended bufB 7 stWithBrightness (by decide)

/-- C6 counterexample: rotating a 2 by 1 document by 90 degrees leaves
the original untouched (not replaced by the transformed result), so the
original and current buffers disagree on their dimensions. -/
theorem claim6_counterexample :
    (CanvasState.rotate 90 stGeom).original ≠ some (rotateImage wideBuf 90) ∧
    Option.map ImageData.width ((CanvasState.rotate 90 stGeom).original) = some 2 ∧
    Option.map ImageData.width ((CanvasState.rotate 90 stGeom).current) = some 1 := by
  refine ⟨by decide, by decide, by decide⟩

/-- C6 amended: each geometry operation replaces only the current buffer
with the transformed result; the original buffer is left unchanged (so
after a dimension-changing operation the two may disagree on size). -/
theorem claim6_amended (jsExp : ℚ → ℚ) (st : CanvasState) (img : ImageData) (angle : ℤ)
    (horizontal : Bool) (h : st.current = some img) :
    ((CanvasState.rotate angle st).original = st.original ∧
      (CanvasState.rotate angle st).current = some (rotateImage img angle)) ∧
    ((CanvasState.flip horizontal st).original = st.original ∧
      (CanvasState.flip horizontal st).current = some (flipImage img horizontal)) ∧
    (CanvasState.confirmCrop jsExp st).original = st.original ∧
    (∀ rect, st.cropRect = some rect → (CanvasState.confirmCrop jsExp st).current =
      some (Fip.applyFilter jsExp img { mkParams "crop" with cropRect := some rect })) := by
  unfold CanvasState.rotate CanvasState.flip CanvasState.confirmCrop
  rw [h]
  refine ⟨⟨rfl, rfl⟩, ⟨rfl, rfl⟩, ?_, ?_⟩
  · cases st.cropRect
    · rfl
    · rfl
  · intro rect hrect
    rw [hrect]

/-- C6 witness: the amended geometry behaviour at a concrete state. -/
theorem claim6_witness :
    ((CanvasState.rotate 90 stGeom).original = stGeom.original ∧
      (CanvasState.rotate 90 stGeom).current = some (rotateImage wideBuf 90)) ∧
    ((CanvasState.flip true stGeom).original = stGeom.original ∧
      (CanvasState.flip true stGeom).current = some (flipImage wideBuf true)) ∧
    (CanvasState.confirmCrop (fun _ => 0) stGeom).original = stGeom.original ∧
    (∀ rect, stGeom.cropRect = some rect →
      (CanvasState.confirmCrop (fun _ => 0) stGeom).current =
        some (Fip.applyFilter (fun _ => 0) wideBuf { mkParams "crop" with cropRect := some rect })) :=
  claim6_amended (fun _ => 0) stGeom wideBuf 90 true rfl

theorem pos_iff_ne_of_nonneg {a : ℚ} (h : 0 ≤ a) : 0 < a ↔ a ≠ 0 :=
  ⟨fun h1 => ne_of_gt h1, fun h1 => lt_of_le_of_ne h (Ne.symm h1)⟩

/-- C1: for every adjustment state whose guarded numeric parameters are
in their documented non-negative ranges (which covers every state
reachable through the UI's setParameter/applyFilter calls),
recomposition equals the spec-side compositor: a fresh copy of the
original with the operators applied in the fixed order brightness,
contrast, saturation, RGB offset, grayscale, invert, box blur, sharpen,
histogram equalization, median filter, Gaussian blur, Laplacian sharpen,
each exactly when its stored parameter differs from its neutral value. -/
theorem claim1_compose_order (jsExp : ℚ → ℚ) (orig : ImageData) (adj : Adjustments)
    (h : InRange adj) : applyAllAdjustments jsExp orig adj = composeSpec jsExp orig adj := by
  obtain ⟨h1, h2, h3, h4, h5⟩ := h
  unfold applyAllAdjustments composeSpec
  simp only [pos_iff_ne_of_nonneg h1, pos_iff_ne_of_nonneg h2, pos_iff_ne_of_nonneg h3,
    pos_iff_ne_of_nonneg h4, pos_iff_ne_of_nonneg h5]

/-- C1 witness: the compositor refinement at a concrete in-range state. -/
theorem claim1_witness :
    InRange { defaultAdjustments with brightness := 50, blur := 2 } ∧
    applyAllAdjustments (fun _ => 0) probeImage
        { defaultAdjustments with brightness := 50, blur := 2 } =
      composeSpec (fun _ => 0) probeImage
        { defaultAdjustments with brightness := 50, blur := 2 } :=
  ⟨by decide, claim1_compose_order (fun _ => 0) probeImage
    { defaultAdjustments with brightness := 50, blur := 2 } (by decide)⟩

theorem map_id_of {l : List Pixel} {f : Pixel → Pixel} (h : ∀ p ∈ l, f p = p) :
    l.map f = l := by
  rw [List.map_congr_left h]
  simp

theorem mk_data_eq (img : ImageData) (l : List Pixel) (h : l = img.data) :
    (⟨img.width, img.height, l⟩ : ImageData) = img := by
  cases img
  simpa using h

theorem storeQ_clamp_natCast {n : ℕ} (h : n ≤ 255) : storeQ (clampQ 0 255 ((n : ℚ))) = n := by
  rw [clampQ_eq_self (by positivity) (by exact_mod_cast h), storeQ_natCast h]

/-- A 2 by 1 buffer containing a pixel of rounded luma 0 with a nonzero
blue channel, next to a white pixel (so the gray histogram is not
uniform). -/
def lumaZeroProbe : ImageData := ⟨2, 1, [⟨0, 0, 1, 255⟩, ⟨255, 255, 255, 255⟩]⟩

/-- C3 counterexample: luminance-mode histogram equalization at strength
0 is not the identity: on a pixel whose rounded luma is 0 but whose blue
channel is 1, it zeroes the RGB channels. -/
theorem claim3_counterexample :
    histogramEqualization lumaZeroProbe 0 EqMode.luminance ≠ lumaZeroProbe := by
  decide

theorem eqPass_zero (get : Pixel → ℕ) (set : Pixel → ℕ → Pixel) (tp : ℕ) (data : List Pixel)
    (hset : ∀ p : Pixel, set p (get p) = p) (hbound : ∀ p ∈ data, get p ≤ 255) :
    eqPass get set tp (0 / 100) data = data := by
  unfold eqPass
  apply map_id_of
  intro p hp
  dsimp only
  have harg : ((get p : ℚ) * (1 - 0 / 100) +
      ((normalizedCdf (data.map get) tp (get p) : ℤ) : ℚ) * (0 / 100)) = ((get p : ℚ)) := by
    norm_num
  rw [harg, jsRound_natCast, storeZ_natCast (hbound p hp), hset]

/-- C3 amended: the neutral-parameter identity holds exactly for
brightness 0, contrast 0, saturation 0, RGB offset (0,0,0), box blur
radius 0, sharpen strength 0 and median filter radius 0 on every
well-formed buffer.  Histogram equalization at strength 0 is an identity
only conditionally: in luminance mode it requires that no pixel has
rounded luma 0 with a nonzero RGB channel (otherwise such channels are
zeroed, as the counterexample shows) and that the gray histogram is not
concentrated on one value; in RGB mode it requires each channel to take
at least two values.  (The excluded uniform cases make the source divide
0 by 0, producing NaN; Gaussian blur at sigma 0 likewise evaluates
exp(-0/0) and is not an identity, so it is not listed.) -/
theorem claim3_amended (img : ImageData) (hwf : img.wf) :
    brightness img 0 = img ∧
    contrast img 0 = img ∧
    saturation img 0 = img ∧
    adjustRGB img 0 0 0 = img ∧
    blur img 0 = img ∧
    sharpen img 0 = img ∧
    medianFilter img 0 = img ∧
    (cdfMinOf (img.data.map grayOf) ≠ img.width * img.height →
      (∀ p ∈ img.data, grayOf p = 0 → p.r = 0 ∧ p.g = 0 ∧ p.b = 0) →
      histogramEqualization img 0 EqMode.luminance = img) ∧
    (cdfMinOf (img.data.map Pixel.r) ≠ img.width * img.height →
      cdfMinOf (img.data.map Pixel.g) ≠ img.width * img.height →
      cdfMinOf (img.data.map Pixel.b) ≠ img.width * img.height →
      histogramEqualization img 0 EqMode.rgb = img) := by
  obtain ⟨hlen, hbounds⟩ := hwf
  refine ⟨?_, ?_, ?_, ?_, ?_, ?_, ?_, ?_, ?_⟩
  · unfold brightness
    apply mk_data_eq
    apply map_id_of
    intro p hp
    obtain ⟨hr, hg, hb, _⟩ := hbounds p hp
    have e : ∀ n : ℕ, ((n : ℚ)) + 0 / 100 * 255 = ((n : ℚ)) := by intro n; norm_num
    rw [e p.r, e p.g, e p.b, storeQ_clamp_natCast hr, storeQ_clamp_natCast hg,
      storeQ_clamp_natCast hb]
  · unfold contrast
    apply mk_data_eq
    apply map_id_of
    intro p hp
    obtain ⟨hr, hg, hb, _⟩ := hbounds p hp
    have e : ∀ n : ℕ, (((n : ℚ)) - 128) * ((0 + 100) / 100) + 128 = ((n : ℚ)) := by
      intro n; norm_num
    rw [e p.r, e p.g, e p.b, storeQ_clamp_natCast hr, storeQ_clamp_natCast hg,
      storeQ_clamp_natCast hb]
  · unfold saturation
    apply mk_data_eq
    apply map_id_of
    intro p hp
    dsimp only
    obtain ⟨hr, hg, hb, _⟩ := hbounds p hp
    have e : ∀ n : ℕ, lumaQ p + (((n : ℚ)) - lumaQ p) * ((0 + 100) / 100) = ((n : ℚ)) := by
      intro n
      have : ((0 : ℚ) + 100) / 100 = 1 := by norm_num
      rw [this]
      ring
    rw [e p.r, e p.g, e p.b, storeQ_clamp_natCast hr, storeQ_clamp_natCast hg,
      storeQ_clamp_natCast hb]
  · unfold adjustRGB
    apply mk_data_eq
    apply map_id_of
    intro p hp
    obtain ⟨hr, hg, hb, _⟩ := hbounds p hp
    have e : ∀ n : ℕ, ((n : ℚ)) + 0 / 100 * 255 = ((n : ℚ)) := by intro n; norm_num
    rw [e p.r, e p.g, e p.b, storeQ_clamp_natCast hr, storeQ_clamp_natCast hg,
      storeQ_clamp_natCast hb]
  · unfold blur
    dsimp only
    have hgrid : mkGrid img.width img.height (fun x y =>
        img.data.getD (y * img.width + x) Pixel.zero) = img.data :=
      mkGrid_getD_self _ _ _ hlen
    refine Eq.trans ?_ (mk_data_eq img _ hgrid)
    congr 1
    apply mkGrid_congr
    intro x y hx hy
    dsimp only
    have hks : (max 1 (⌊(0 : ℚ) * 2⌋ + 1) : ℤ) = 1 := by norm_num
    rw [hks]
    have hhk : ((1 : ℤ) / 2).toNat = 0 := by decide
    rw [hhk]
    have hoffs : (List.range (2 * 0 + 1)).map (fun (k : ℕ) => ((k : ℤ)) - (((0 : ℕ) : ℤ))) =
        [(0 : ℤ)] := by decide
    rw [hoffs]
    simp only [List.flatMap_cons, List.flatMap_nil, List.map_cons, List.map_nil,
      List.append_nil, List.sum_cons, List.sum_nil, List.length_cons, List.length_nil]
    have hpx : (max 0 (min ((img.width : ℤ) - 1) ((x : ℤ) + 0))).toNat = x := by omega
    have hpy : (max 0 (min ((img.height : ℤ) - 1) ((y : ℤ) + 0))).toNat = y := by omega
    rw [hpx, hpy]
    obtain ⟨hr, hg, hb, ha⟩ := getD_wf img ⟨hlen, hbounds⟩ (y * img.width + x)
    have e : ∀ n : ℕ, storeZ (jsRound ((((n : ℚ)) + 0) / ((1 : ℕ) : ℚ))) = n → True := fun _ _ =>
      trivial
    have e2 : ∀ n : ℕ, n ≤ 255 → storeZ (jsRound ((((n : ℚ)) + 0) / (((0 + 1 : ℕ)) : ℚ))) = n := by
      intro n hn
      have : ((((n : ℚ)) + 0) / (((0 + 1 : ℕ)) : ℚ)) = ((n : ℚ)) := by norm_num
      rw [this, jsRound_natCast, storeZ_natCast hn]
    rw [e2 _ hr, e2 _ hg, e2 _ hb, e2 _ ha]
  · unfold sharpen
    dsimp only
    have hgrid : mkGrid img.width img.height (fun x y =>
        img.data.getD (y * img.width + x) Pixel.zero) = img.data :=
      mkGrid_getD_self _ _ _ hlen
    refine Eq.trans ?_ (mk_data_eq img _ hgrid)
    congr 1
    apply mkGrid_congr
    intro x y hx hy
    dsimp only
    by_cases hint : 1 ≤ x ∧ x + 1 < img.width ∧ 1 ≤ y ∧ y + 1 < img.height
    · rw [if_pos hint]
      obtain ⟨hx1, hx2, hy1, hy2⟩ := hint
      have hr3 : List.range 3 = [0, 1, 2] := rfl
      have hw : ∀ kyi kxi : ℕ, sharpenKernelW (0 / 100) (((kyi : ℕ) : ℤ) - 1)
          (((kxi : ℕ) : ℤ) - 1) = if kyi = 1 ∧ kxi = 1 then 1 else 0 := by
        intro kyi kxi
        unfold sharpenKernelW
        by_cases h1 : kyi = 1 ∧ kxi = 1
        · obtain ⟨ha, hb⟩ := h1
          subst ha; subst hb
          norm_num
        · split
          · rename_i hz
            exfalso
            apply h1
            omega
          · split
            · norm_num
            · norm_num
      simp only [hr3, List.flatMap_cons, List.flatMap_nil, List.map_cons, List.map_nil,
        List.append_nil, List.sum_cons, List.sum_nil, hw]
      norm_num
      have hcy : y - 1 + 1 = y := by omega
      have hcx : x - 1 + 1 = x := by omega
      rw [hcy, hcx]
      obtain ⟨hr, hg, hb, ha⟩ := getD_wf img ⟨hlen, hbounds⟩ (y * img.width + x)
      rw [List.getD_eq_getElem?_getD] at hr hg hb
      rw [storeQ_clamp_natCast hr, storeQ_clamp_natCast hg, storeQ_clamp_natCast hb]
    · rw [if_neg hint]
  · unfold medianFilter
    dsimp only
    have hgrid : mkGrid img.width img.height (fun x y =>
        img.data.getD (y * img.width + x) Pixel.zero) = img.data :=
      mkGrid_getD_self _ _ _ hlen
    refine Eq.trans ?_ (mk_data_eq img _ hgrid)
    congr 1
    apply mkGrid_congr
    intro x y hx hy
    dsimp only
    rw [if_pos ⟨Nat.zero_le x, by omega, Nat.zero_le y, by omega⟩]
    have hr1 : List.range (2 * 0 + 1) = [0] := rfl
    simp only [hr1, List.flatMap_cons, List.flatMap_nil, List.map_cons, List.map_nil,
      List.append_nil, Nat.sub_zero, Nat.add_zero, List.length_cons, List.length_nil]
    obtain ⟨hr, hg, hb, ha⟩ := getD_wf img ⟨hlen, hbounds⟩ (y * img.width + x)
    have hsort : ∀ n : ℕ, List.insertionSort (· ≤ ·) [n] = [n] := fun n => rfl
    rw [hsort, hsort, hsort]
    have hmid : (1 : ℕ) / 2 = 0 := rfl
    rw [hmid]
    simp only [List.getD_cons_zero]
    rw [storeZ_natCast hr, storeZ_natCast hg, storeZ_natCast hb]
  · intro hden hluma
    have hlum : histogramEqualization img 0 EqMode.luminance =
        histogramEqualizationLum img 0 := rfl
    rw [hlum]
    unfold histogramEqualizationLum
    dsimp only
    apply mk_data_eq
    apply map_id_of
    intro p hp
    dsimp only
    obtain ⟨hr, hg, hb, _⟩ := hbounds p hp
    have he : ∀ (g : ℕ) (e : ℤ),
        jsRound (((g : ℚ)) * (1 - 0 / 100) + ((e : ℤ) : ℚ) * (0 / 100)) = ((g : ℕ) : ℤ) := by
      intro g e
      have : (((g : ℚ)) * (1 - 0 / 100) + ((e : ℤ) : ℚ) * (0 / 100)) = ((g : ℚ)) := by norm_num
      rw [this, jsRound_natCast]
    rw [he]
    by_cases hg0 : grayOf p = 0
    · rw [if_pos hg0]
      obtain ⟨hpr, hpg, hpb⟩ := hluma p hp hg0
      rw [hg0]
      have : storeZ (((0 : ℕ) : ℤ)) = 0 := storeZ_natCast (by omega)
      rw [this]
      have : p = ⟨p.r, p.g, p.b, p.a⟩ := rfl
      rw [this, hpr, hpg, hpb]
    · rw [if_neg hg0]
      have hdiv : (((grayOf p : ℕ) : ℤ) : ℚ) / ((grayOf p : ℕ) : ℚ) = 1 := by
        push_cast
        exact div_self (by exact_mod_cast hg0)
      rw [hdiv]
      have hch : ∀ n : ℕ, n ≤ 255 →
          storeZ (min 255 (max 0 (jsRound (((n : ℚ)) * 1)))) = n := by
        intro n hn
        rw [mul_one, jsRound_natCast,
          max_eq_right (by positivity), min_eq_right (by exact_mod_cast hn),
          storeZ_natCast hn]
      rw [hch p.r hr, hch p.g hg, hch p.b hb]
  · intro hdr hdg hdb
    have hrgb : histogramEqualization img 0 EqMode.rgb =
        histogramEqualizationRGB img 0 := rfl
    rw [hrgb]
    unfold histogramEqualizationRGB
    dsimp only
    rw [eqPass_zero Pixel.r setR _ _ (fun p => rfl) (fun p hp => (hbounds p hp).1),
      eqPass_zero Pixel.g setG _ _ (fun p => rfl) (fun p hp => (hbounds p hp).2.1),
      eqPass_zero Pixel.b setB _ _ (fun p => rfl) (fun p hp => (hbounds p hp).2.2.1)]

/-- C3 witness: the amended neutral identities at a concrete well-formed
buffer whose grays are not uniform, whose channels are not uniform, and
which has no luma-0 pixel. -/
theorem claim3_witness :
    brightness probeImage 0 = probeImage ∧
    contrast probeImage 0 = probeImage ∧
    saturation probeImage 0 = probeImage ∧
    adjustRGB probeImage 0 0 0 = probeImage ∧
    blur probeImage 0 = probeImage ∧
    sharpen probeImage 0 = probeImage ∧
    medianFilter probeImage 0 = probeImage ∧
    histogramEqualization probeImage 0 EqMode.luminance = probeImage ∧
    histogramEqualization probeImage 0 EqMode.rgb = probeImage := by
  obtain ⟨h1, h2, h3, h4, h5, h6, h7, h8, h9⟩ := claim3_amended probeImage (by decide)
  exact ⟨h1, h2, h3, h4, h5, h6, h7, h8 (by decide) (by decide),
    h9 (by decide) (by decide) (by decide)⟩

/-- C8 counterexample: on a 3 by 3 all-white buffer, the Sobel output's
corner pixel is transparent black, not the white input pixel: the border
ring is zeroed, not copied. -/
theorem claim8_counterexample :
    getPixel (sobelEdgeDetection whiteProbe) 0 0 ≠ getPixel whiteProbe 0 0 ∧
    getPixel (sobelEdgeDetection whiteProbe) 0 0 = Pixel.zero :=
  ⟨by decide, by decide⟩

/-- C8 amended: for Sobel and Prewitt every pixel of the one-pixel border
ring of the output is zero on all four channels (the result array is
freshly allocated and the border is never written), not a copy of the
input; for Roberts the zeroed band is the bottom row and right column
only.  Interior (for Roberts: all other) pixels are replaced by the
gradient magnitude min(255, sqrt(Gx*Gx + Gy*Gy)) written to R, G and B
with alpha forced to 255. -/
theorem claim8_amended (img : ImageData) (x y : ℕ) (hx : x < img.width) (hy : y < img.height) :
    ((x = 0 ∨ y = 0 ∨ x + 1 = img.width ∨ y + 1 = img.height) →
      getPixel (sobelEdgeDetection img) x y = Pixel.zero ∧
      getPixel (prewittEdgeDetection img) x y = Pixel.zero) ∧
    ((1 ≤ x ∧ x + 1 < img.width ∧ 1 ≤ y ∧ y + 1 < img.height) →
      getPixel (sobelEdgeDetection img) x y =
        ⟨sobelMag img x y, sobelMag img x y, sobelMag img x y, 255⟩ ∧
      getPixel (prewittEdgeDetection img) x y =
        ⟨prewittMag img x y, prewittMag img x y, prewittMag img x y, 255⟩) ∧
    ((x + 1 = img.width ∨ y + 1 = img.height) →
      getPixel (robertsEdgeDetection img) x y = Pixel.zero) ∧
    ((x + 1 < img.width ∧ y + 1 < img.height) →
      getPixel (robertsEdgeDetection img) x y =
        ⟨robertsMag img x y, robertsMag img x y, robertsMag img x y, 255⟩) := by
  have hs : getPixel (sobelEdgeDetection img) x y =
      (if 1 ≤ x ∧ x + 1 < img.width ∧ 1 ≤ y ∧ y + 1 < img.height then
        (⟨sobelMag img x y, sobelMag img x y, sobelMag img x y, 255⟩ : Pixel)
      else Pixel.zero) := by
    unfold sobelEdgeDetection
    dsimp only
    exact mkGrid_getPixel _ _ _ x y hx hy
  have hp : getPixel (prewittEdgeDetection img) x y =
      (if 1 ≤ x ∧ x + 1 < img.width ∧ 1 ≤ y ∧ y + 1 < img.height then
        (⟨prewittMag img x y, prewittMag img x y, prewittMag img x y, 255⟩ : Pixel)
      else Pixel.zero) := by
    unfold prewittEdgeDetection
    dsimp only
    exact mkGrid_getPixel _ _ _ x y hx hy
  have hrb : getPixel (robertsEdgeDetection img) x y =
      (if x + 1 < img.width ∧ y + 1 < img.height then
        (⟨robertsMag img x y, robertsMag img x y, robertsMag img x y, 255⟩ : Pixel)
      else Pixel.zero) := by
    unfold robertsEdgeDetection
    dsimp only
    exact mkGrid_getPixel _ _ _ x y hx hy
  refine ⟨?_, ?_, ?_, ?_⟩
  · intro hb
    exact ⟨by rw [hs, if_neg (by omega)], by rw [hp, if_neg (by omega)]⟩
  · intro hint
    exact ⟨by rw [hs, if_pos hint], by rw [hp, if_pos hint]⟩
  · intro hb
    rw [hrb, if_neg (by omega)]
  · intro hint
    rw [hrb, if_pos hint]

/-- C8 witness: the amended border and interior behaviour at concrete
positions of the 3 by 3 white buffer. -/
theorem claim8_witness :
    (getPixel (sobelEdgeDetection whiteProbe) 0 0 = Pixel.zero ∧
      getPixel (prewittEdgeDetection whiteProbe) 0 0 = Pixel.zero) ∧
    (getPixel (sobelEdgeDetection whiteProbe) 1 1 =
      ⟨sobelMag whiteProbe 1 1, sobelMag whiteProbe 1 1, sobelMag whiteProbe 1 1, 255⟩ ∧
     getPixel (prewittEdgeDetection whiteProbe) 1 1 =
      ⟨prewittMag whiteProbe 1 1, prewittMag whiteProbe 1 1, prewittMag whiteProbe 1 1, 255⟩) ∧
    getPixel (robertsEdgeDetection whiteProbe) 2 0 = Pixel.zero ∧
    getPixel (robertsEdgeDetection whiteProbe) 0 0 =
      ⟨robertsMag whiteProbe 0 0, robertsMag whiteProbe 0 0, robertsMag whiteProbe 0 0, 255⟩ := by
  obtain ⟨b00, _, _, ri00⟩ := claim8_amended whiteProbe 0 0 (by decide) (by decide)
  obtain ⟨_, i11, _, _⟩ := claim8_amended whiteProbe 1 1 (by decide) (by decide)
  obtain ⟨_, _, rb20, _⟩ := claim8_amended whiteProbe 2 0 (by decide) (by decide)
  exact ⟨b00 (by decide), i11 (by decide), rb20 (by decide), ri00 (by decide)⟩

end Fip
